import Mathlib

/-!
Verification development for the Bisq payload module (src/bisq/payload.rs).

The Rust code is shallowly embedded: byte vectors become lists of
naturals, protobuf-generated message structs become Lean structures with
the fields the module reads, and each fallible Rust operation returns
Option (an early None models the question-mark operator) or Except
(an error models a Rust process abort via expect). The cryptographic
primitives (SHA-256, RIPEMD-160, protobuf canonical encoding, DSA key
parsing and signature verification) live outside the module, so they are
abstracted as a record of functions over which all theorems quantify.
-/

namespace Risq

/-- A Rust byte vector. -/
abbrev Bytes := List Nat

/-- Modelled from the spec: the generated protobuf structs (the include
of generated io.bisq.protobuffer.rs is not in the source tree); fields
follow their use in payload.rs and the payload schema of section 3. -/
structure Alert where
  owner_pub_key_bytes : Bytes
deriving DecidableEq, Repr

structure Filter where
  owner_pub_key_bytes : Bytes
deriving DecidableEq, Repr

structure PubKeyRing where
  signature_pub_key_bytes : Bytes
deriving DecidableEq, Repr

structure Arbitrator where
  pub_key_ring : Option PubKeyRing
deriving DecidableEq, Repr

structure Mediator where
  pub_key_ring : Option PubKeyRing
deriving DecidableEq, Repr

structure RefundAgent where
  pub_key_ring : Option PubKeyRing
deriving DecidableEq, Repr

structure TradeStatistics where
  signature_pub_key_bytes : Bytes
deriving DecidableEq, Repr

structure MailboxStoragePayload where
  sender_pub_key_for_add_operation_bytes : Bytes
deriving DecidableEq, Repr

structure OfferPayload where
  pub_key_ring : Option PubKeyRing
deriving DecidableEq, Repr

structure TempProposalPayload where
  owner_pub_key_encoded : Bytes
deriving DecidableEq, Repr

/-- The storage_payload::Message oneof: exactly one variant is active. -/
inductive storage_payload.Message where
  | Alert (a : Alert)
  | Arbitrator (a : Arbitrator)
  | Mediator (m : Mediator)
  | Filter (f : Filter)
  | TradeStatistics (t : TradeStatistics)
  | MailboxStoragePayload (m : MailboxStoragePayload)
  | OfferPayload (o : OfferPayload)
  | TempProposalPayload (t : TempProposalPayload)
  | RefundAgent (r : RefundAgent)
deriving DecidableEq, Repr

/-- StoragePayload: a protobuf message whose oneof field is optional. -/
structure StoragePayload where
  message : Option storage_payload.Message
deriving DecidableEq, Repr

/-- DataAndSeqNrPair from the protobuf schema: the structure whose
canonical encoding is hashed for signing. -/
structure DataAndSeqNrPair where
  payload : Option StoragePayload
  sequence_number : Int
deriving DecidableEq, Repr

structure ProtectedStorageEntry where
  storage_payload : Option StoragePayload
  owner_pub_key_bytes : Bytes
  sequence_number : Int
  signature : Bytes
deriving DecidableEq, Repr

structure RefreshOfferMessage where
  hash_of_data_and_seq_nr : Bytes
  signature : Bytes
  hash_of_payload : Bytes
  sequence_number : Int
deriving DecidableEq, Repr

/-- AccountAgeWitness carries its peer-supplied identity hash and its
content (the date field of the protobuf schema). -/
structure AccountAgeWitness where
  hash : Bytes
  date : Int
deriving DecidableEq, Repr

structure TradeStatistics2 where
  hash : Bytes
deriving DecidableEq, Repr

structure ProposalPayload where
  hash : Bytes
deriving DecidableEq, Repr

structure BlindVotePayload where
  hash : Bytes
deriving DecidableEq, Repr

structure SignedWitness where
  account_age_witness_hash : Bytes
  signature : Bytes
  signer_pub_key : Bytes
deriving DecidableEq, Repr

inductive persistable_network_payload.Message where
  | AccountAgeWitness (w : AccountAgeWitness)
  | TradeStatistics2 (s : TradeStatistics2)
  | ProposalPayload (p : ProposalPayload)
  | BlindVotePayload (v : BlindVotePayload)
  | SignedWitness (w : SignedWitness)
deriving DecidableEq, Repr

structure PersistableNetworkPayload where
  message : Option persistable_network_payload.Message
deriving DecidableEq, Repr

/-- A typed wrapper over a SHA-256 digest (the storage-map key). -/
structure SequencedMessageHash where
  inner : Bytes
deriving DecidableEq, Repr

/-- A typed wrapper over a RIPEMD-160 digest (the persistable-set key). -/
structure PersistentMessageHash where
  inner : Bytes
deriving DecidableEq, Repr

/-- Modelled from the spec: the cryptographic and encoding primitives
used by payload.rs but defined elsewhere (the openssl DSA bindings, the
sha256 and ripemd160 hash functions of the prelude, and the canonical
protobuf encoding of the Hash trait in src/bisq/hash.rs, none of which
are under the source tree). publicKeyFromDer tells whether DER parsing
plus DSA key construction succeeds on the given bytes; verifyOneshot
takes the DER key bytes, the signature and the digest, returns none on a
cryptographic error and otherwise the boolean verdict of
Verifier::verify_oneshot. -/
structure Crypto where
  sha256 : Bytes → Bytes
  ripemd160 : Bytes → Bytes
  encodeStoragePayload : StoragePayload → Bytes
  encodeDataAndSeqNrPair : DataAndSeqNrPair → Bytes
  publicKeyFromDer : Bytes → Bool
  verifyOneshot : Bytes → Bytes → Bytes → Option Bool

/-- A concrete instantiation of the primitives, used to evaluate the
theorems on closed inputs. -/
def trivialCrypto : Crypto where
  sha256 := fun _ => []
  ripemd160 := fun _ => []
  encodeStoragePayload := fun _ => []
  encodeDataAndSeqNrPair := fun _ => []
  publicKeyFromDer := fun _ => true
  verifyOneshot := fun _ _ _ => some true

/-- Modelled from the spec: hash(P) = SHA-256(canonical_encoding(P)),
the Hash trait method P.sha256() applied to a StoragePayload. -/
def StoragePayload.sha256Of (c : Crypto) (p : StoragePayload) : Bytes :=
  c.sha256 (c.encodeStoragePayload p)

/-- StoragePayload::bisq_hash from payload.rs. -/
def StoragePayload.bisq_hash (c : Crypto) (p : StoragePayload) : SequencedMessageHash :=
  SequencedMessageHash.mk (p.sha256Of c)

/-- Modelled from the spec: the same canonical hash applied to the
composite DataAndSeqNrPair structure. -/
def DataAndSeqNrPair.sha256Of (c : Crypto) (d : DataAndSeqNrPair) : Bytes :=
  c.sha256 (c.encodeDataAndSeqNrPair d)

/-- StoragePayload::signing_pub_key_bytes from payload.rs: each early
None mirrors a question mark in the Rust source. -/
def StoragePayload.signing_pub_key_bytes (p : StoragePayload) : Option Bytes :=
  match p.message with
  | none => none
  | some (.Alert a) => some a.owner_pub_key_bytes
  | some (.Arbitrator a) =>
    match a.pub_key_ring with
    | none => none
    | some r => some r.signature_pub_key_bytes
  | some (.Mediator m) =>
    match m.pub_key_ring with
    | none => none
    | some r => some r.signature_pub_key_bytes
  | some (.Filter f) => some f.owner_pub_key_bytes
  | some (.TradeStatistics t) => some t.signature_pub_key_bytes
  | some (.MailboxStoragePayload m) => some m.sender_pub_key_for_add_operation_bytes
  | some (.OfferPayload o) =>
    match o.pub_key_ring with
    | none => none
    | some r => some r.signature_pub_key_bytes
  | some (.TempProposalPayload t) => some t.owner_pub_key_encoded
  | some (.RefundAgent r) =>
    match r.pub_key_ring with
    | none => none
    | some ring => some ring.signature_pub_key_bytes

/-- ProtectedStorageEntry::verify from payload.rs. Control flow matches
the source: absent payload, absent signing key, key mismatch, key that
does not decode, a cryptographic error and a negative verdict all
return None; success returns the bisq hash of the payload alone. -/
def ProtectedStorageEntry.verify (c : Crypto) (e : ProtectedStorageEntry) :
    Option SequencedMessageHash :=
  match e.storage_payload with
  | none => none
  | some payload =>
    match payload.signing_pub_key_bytes with
    | none => none
    | some signing =>
      if signing ≠ e.owner_pub_key_bytes then none
      else if ¬ c.publicKeyFromDer e.owner_pub_key_bytes then none
      else
        match c.verifyOneshot e.owner_pub_key_bytes e.signature
            (DataAndSeqNrPair.sha256Of c
              { payload := some payload, sequence_number := e.sequence_number }) with
        | none => none
        | some verified => if verified then some (payload.bisq_hash c) else none

/-- sha256::Hash::from_slice: succeeds exactly on 32-byte inputs. -/
def sha256FromSlice (l : Bytes) : Option Bytes :=
  if l.length = 32 then some l else none

/-- ripemd160::Hash::from_slice: succeeds exactly on 20-byte inputs. -/
def ripemd160FromSlice (l : Bytes) : Option Bytes :=
  if l.length = 20 then some l else none

/-- RefreshOfferMessage::payload_hash from payload.rs: the expect call
of the source aborts the process on a malformed embedded hash, modelled
as the error branch of Except. The message text is abridged (the source
string contains an apostrophe). -/
def RefreshOfferMessage.payload_hash (m : RefreshOfferMessage) :
    Except String SequencedMessageHash :=
  match sha256FromSlice m.hash_of_payload with
  | some h => .ok (SequencedMessageHash.mk h)
  | none => .error "Couldnt unwrap RefreshOfferMessage.hash_of_data"

/-- RefreshOfferMessage::verify from payload.rs: the hash comparison
comes first; only when it passes are the key decoded and the signature
checked. -/
def RefreshOfferMessage.verify (c : Crypto) (m : RefreshOfferMessage)
    (owner_pub_key : Bytes) (original_payload : StoragePayload) : Option Unit :=
  let hash := DataAndSeqNrPair.sha256Of c
    { payload := some original_payload, sequence_number := m.sequence_number }
  if hash ≠ m.hash_of_data_and_seq_nr then none
  else if ¬ c.publicKeyFromDer owner_pub_key then none
  else
    match c.verifyOneshot owner_pub_key m.signature hash with
    | none => none
    | some verified => if verified then some () else none

/-- PersistableNetworkPayload::bisq_hash from payload.rs: each expect
call of the source aborts the process, modelled as the error branch of
Except; for the four hash-carrying variants the key is the embedded
field, for SignedWitness it is computed from the concatenation. -/
def PersistableNetworkPayload.bisq_hash (c : Crypto) (p : PersistableNetworkPayload) :
    Except String PersistentMessageHash :=
  match p.message with
  | none => .error "PersistableNetworkPayload doesnt have message attached"
  | some (.AccountAgeWitness w) =>
    match ripemd160FromSlice w.hash with
    | some h => .ok (PersistentMessageHash.mk h)
    | none => .error "AccountAgeWitness.hash is not correct"
  | some (.TradeStatistics2 s) =>
    match ripemd160FromSlice s.hash with
    | some h => .ok (PersistentMessageHash.mk h)
    | none => .error "TradeStatistics2.hash is not correct"
  | some (.ProposalPayload pr) =>
    match ripemd160FromSlice pr.hash with
    | some h => .ok (PersistentMessageHash.mk h)
    | none => .error "ProposalPayload.hash is not correct"
  | some (.BlindVotePayload v) =>
    match ripemd160FromSlice v.hash with
    | some h => .ok (PersistentMessageHash.mk h)
    | none => .error "BlindVotePayload.hash is not correct"
  | some (.SignedWitness w) =>
    .ok (PersistentMessageHash.mk
      (c.ripemd160 (c.sha256 (w.account_age_witness_hash ++ w.signature ++ w.signer_pub_key))))

/-- Whether an Except value is in the ok branch. -/
def exOk {ε α : Type} : Except ε α → Bool
  | .ok _ => true
  | .error _ => false

/-- NodeAddress from the protobuf schema: host name and port, the port
being a 32-bit integer on the wire. Strings are modelled as lists of
characters. -/
structure NodeAddress where
  host_name : List Char
  port : Int
deriving DecidableEq, Repr

/-- One digit to its decimal character. -/
def digitChar (d : Nat) : Char :=
  match d with
  | 0 => '0' | 1 => '1' | 2 => '2' | 3 => '3' | 4 => '4'
  | 5 => '5' | 6 => '6' | 7 => '7' | 8 => '8' | _ => '9'

/-- One decimal character back to its digit, none on a non-digit. -/
def charToDigit (c : Char) : Option Nat :=
  if c.isDigit then some (c.toNat - 48) else none

/-- The decimal digits of n, least significant first; the fuel argument
makes the recursion structural and is always given as n itself. -/
def natDigitsFuel : Nat → Nat → List Nat
  | 0, _ => []
  | _ + 1, 0 => []
  | f + 1, n + 1 => ((n + 1) % 10) :: natDigitsFuel f ((n + 1) / 10)

/-- The decimal digits of n, most significant first, as Display prints
an unsigned integer. -/
def natToDecimalDigits (n : Nat) : List Nat :=
  if n = 0 then [0] else (natDigitsFuel n n).reverse

/-- Fold a digit list, most significant first, back to its value. -/
def parseDigits (l : List Nat) : Nat :=
  l.foldl (fun a d => a * 10 + d) 0

/-- Convert every character to a digit; none if any is not a digit. -/
def charsToDigits : List Char → Option (List Nat)
  | [] => some []
  | c :: cs =>
    match charToDigit c, charsToDigits cs with
    | some d, some ds => some (d :: ds)
    | _, _ => none

/-- The digit run of u16::from_str: nonempty, all decimal digits,
value within 16 bits. -/
def parseU16Core (digits : List Char) : Option Nat :=
  if digits.isEmpty then none
  else
    match charsToDigits digits with
    | none => none
    | some ds => if parseDigits ds < 65536 then some (parseDigits ds) else none

/-- u16::from_str of the Rust standard library: an optional leading
plus sign, then a nonempty run of decimal digits whose value fits in 16
bits; a minus sign is a plain invalid digit for an unsigned type. -/
def parse_u16 (s : List Char) : Option Nat :=
  parseU16Core (if s.head? = some '+' then s.tail else s)

/-- str::split on the colon separator. -/
def splitOnColon : List Char → List (List Char)
  | [] => [[]]
  | c :: rest =>
    if c = ':' then [] :: splitOnColon rest
    else
      match splitOnColon rest with
      | [] => [[c]]
      | g :: gs => (c :: g) :: gs

/-- i32 Display: decimal digits, with a leading minus sign when
negative. -/
def intDisplay (i : Int) : List Char :=
  if i < 0 then '-' :: (natToDecimalDigits i.natAbs).map digitChar
  else (natToDecimalDigits i.toNat).map digitChar

/-- The Display impl of NodeAddress from payload.rs: host, colon,
port. -/
def NodeAddress.display (a : NodeAddress) : List Char :=
  a.host_name ++ ':' :: intDisplay a.port

/-- The FromStr impl of NodeAddress from payload.rs: the first two
colon-separated fields are host and port, anything further is ignored;
the error strings are abridged (the source strings contain an
apostrophe). -/
def NodeAddress.from_str (s : List Char) : Except String NodeAddress :=
  match splitOnColon s with
  | host :: port :: _ =>
    match parse_u16 port with
    | some p => .ok { host_name := host, port := (p : Int) }
    | none => .error "Couldnt parse port"
  | _ => .error "Couldnt parse node address"

structure AddDataMessage where
  entry : Option ProtectedStorageEntry
deriving DecidableEq, Repr

structure AddPersistableNetworkPayloadMessage where
  payload : Option PersistableNetworkPayload
deriving DecidableEq, Repr

structure Ping where
  nonce : Int
deriving DecidableEq, Repr

/-- Modelled from the spec: the network_envelope::Message oneof (the
generated envelope union and the for_all_payloads macro are not in the
source tree); the three variants the slice handles, plus Ping standing
for the remaining variants that are forwarded unchanged. -/
inductive network_envelope.Message where
  | AddDataMessage (m : AddDataMessage)
  | RefreshOfferMessage (m : RefreshOfferMessage)
  | AddPersistableNetworkPayloadMessage (m : AddPersistableNetworkPayloadMessage)
  | Ping (p : Ping)
deriving DecidableEq, Repr

/-- Extract from payload.rs: either the narrowed payload or the
original envelope message, untouched. -/
inductive Extract (P : Type) where
  | Succeeded (p : P)
  | Failed (msg : network_envelope.Message)
deriving DecidableEq, Repr

/-- The extractor the macro generates for AddDataMessage. -/
def AddDataMessage.extract : network_envelope.Message → Extract AddDataMessage
  | .AddDataMessage request => .Succeeded request
  | msg => .Failed msg

/-- The extractor the macro generates for RefreshOfferMessage. -/
def RefreshOfferMessage.extract : network_envelope.Message → Extract RefreshOfferMessage
  | .RefreshOfferMessage request => .Succeeded request
  | msg => .Failed msg

/-- The extractor the macro generates for
AddPersistableNetworkPayloadMessage. -/
def AddPersistableNetworkPayloadMessage.extract :
    network_envelope.Message → Extract AddPersistableNetworkPayloadMessage
  | .AddPersistableNetworkPayloadMessage request => .Succeeded request
  | msg => .Failed msg

/-- The success cases of ProtectedStorageEntry::verify, as one
equation: a hash comes out exactly when the payload is present, its
signing key equals the owner key bytes, that key decodes, the DSA
verdict over the hashed pair is positive, and the hash is the bisq hash
of the payload. -/
lemma verify_eq_some_iff (c : Crypto) (e : ProtectedStorageEntry) (h : SequencedMessageHash) :
    e.verify c = some h ↔
      ∃ p, e.storage_payload = some p ∧
        p.signing_pub_key_bytes = some e.owner_pub_key_bytes ∧
        c.publicKeyFromDer e.owner_pub_key_bytes = true ∧
        c.verifyOneshot e.owner_pub_key_bytes e.signature
          (DataAndSeqNrPair.sha256Of c
            { payload := some p, sequence_number := e.sequence_number }) = some true ∧
        h = p.bisq_hash c := by
  unfold ProtectedStorageEntry.verify
  rcases hsp : e.storage_payload with _ | p
  · simp
  · simp only [Option.some.injEq]
    rcases hs : p.signing_pub_key_bytes with _ | s
    · simp [hs]
    · by_cases hso : s = e.owner_pub_key_bytes
      · subst hso
        simp only [ne_eq, not_true_eq_false, if_false, hs]
        by_cases hk : c.publicKeyFromDer e.owner_pub_key_bytes
        · simp only [hk, not_true_eq_false, if_false, if_true, ite_false, ite_true]
          rcases hv : c.verifyOneshot e.owner_pub_key_bytes e.signature
              (DataAndSeqNrPair.sha256Of c
                { payload := some p, sequence_number := e.sequence_number }) with _ | b
          · simp [hv]
          · rcases b with _ | _
            · simp [hv]
            · simp [hs, hv]
              exact eq_comm
        · simp [hk]
      · simp [hso, hs, Ne.symm]

/-- C1: ProtectedStorageEntry verification succeeds if and only if the
payload is present, the owner key bytes equal the signing public-key
bytes of the payload, and the DER-decoded DSA owner key verifies the
signature over the SHA-256 of the canonical encoding of the
DataAndSeqNrPair of the payload and the sequence number; a key
mismatch, an absent payload, an undecodable key or a failed
verification all yield no result. -/
theorem c1_verify_succeeds_iff (c : Crypto) (e : ProtectedStorageEntry) :
    (e.verify c).isSome = true ↔
      ∃ p, e.storage_payload = some p ∧
        p.signing_pub_key_bytes = some e.owner_pub_key_bytes ∧
        c.publicKeyFromDer e.owner_pub_key_bytes = true ∧
        c.verifyOneshot e.owner_pub_key_bytes e.signature
          (DataAndSeqNrPair.sha256Of c
            { payload := some p, sequence_number := e.sequence_number }) = some true := by
  rw [Option.isSome_iff_exists]
  constructor
  · rintro ⟨h, hv⟩
    obtain ⟨p, h1, h2, h3, h4, _⟩ := (verify_eq_some_iff c e h).mp hv
    exact ⟨p, h1, h2, h3, h4⟩
  · rintro ⟨p, h1, h2, h3, h4⟩
    exact ⟨p.bisq_hash c, (verify_eq_some_iff c e (p.bisq_hash c)).mpr
      ⟨p, h1, h2, h3, h4, rfl⟩⟩

/-- C2: a refresh message whose recomputed pair hash differs from its
embedded hash_of_data_and_seq_nr is rejected with no result, whatever
the abstract signature primitives would have answered: the crypto
record, and with it the signature verdict, is arbitrary. -/
theorem c2_refresh_hash_mismatch_ignored (c : Crypto) (m : RefreshOfferMessage)
    (owner_pub_key : Bytes) (original_payload : StoragePayload)
    (hne : DataAndSeqNrPair.sha256Of c
        { payload := some original_payload, sequence_number := m.sequence_number } ≠
      m.hash_of_data_and_seq_nr) :
    m.verify c owner_pub_key original_payload = none := by
  unfold RefreshOfferMessage.verify
  simp [hne]

/-- Witness for C2: a concrete refresh message whose embedded hash is
not the recomputed one is rejected under the concrete primitives. -/
theorem c2_witness :
    RefreshOfferMessage.verify trivialCrypto
      { hash_of_data_and_seq_nr := [1], signature := [], hash_of_payload := [],
        sequence_number := 0 } [] { message := none } = none :=
  c2_refresh_hash_mismatch_ignored trivialCrypto
    { hash_of_data_and_seq_nr := [1], signature := [], hash_of_payload := [],
      sequence_number := 0 } [] { message := none } (by decide)

/-- C9: a successful ProtectedStorageEntry verification returns the
bisq hash of the stored payload alone, not the hash of the pair the
signature was checked against; hence for a fixed payload the returned
key is the same whatever the sequence numbers. -/
theorem c9_verify_returns_payload_hash (c : Crypto) :
    (∀ (e : ProtectedStorageEntry) (p : StoragePayload) (h : SequencedMessageHash),
      e.storage_payload = some p → e.verify c = some h → h = p.bisq_hash c) ∧
    (∀ (e₁ e₂ : ProtectedStorageEntry) (h₁ h₂ : SequencedMessageHash),
      e₁.storage_payload = e₂.storage_payload →
      e₁.verify c = some h₁ → e₂.verify c = some h₂ → h₁ = h₂) := by
  constructor
  · intro e p h hp hv
    obtain ⟨q, hq, -, -, -, hh⟩ := (verify_eq_some_iff c e h).mp hv
    rw [hp] at hq
    cases hq
    exact hh
  · intro e₁ e₂ h₁ h₂ heq hv₁ hv₂
    obtain ⟨p₁, hp₁, -, -, -, hh₁⟩ := (verify_eq_some_iff c e₁ h₁).mp hv₁
    obtain ⟨p₂, hp₂, -, -, -, hh₂⟩ := (verify_eq_some_iff c e₂ h₂).mp hv₂
    rw [heq, hp₂] at hp₁
    cases hp₁
    rw [hh₁, hh₂]

/-- Witness for C9: a concrete entry that verifies under the concrete
primitives yields the bisq hash of its payload. -/
theorem c9_witness :
    SequencedMessageHash.mk [] =
      StoragePayload.bisq_hash trivialCrypto
        { message := some (.Alert { owner_pub_key_bytes := [] }) } :=
  (c9_verify_returns_payload_hash trivialCrypto).1
    { storage_payload := some { message := some (.Alert { owner_pub_key_bytes := [] }) },
      owner_pub_key_bytes := [], sequence_number := 0, signature := [] }
    { message := some (.Alert { owner_pub_key_bytes := [] }) }
    (SequencedMessageHash.mk []) rfl (by decide)

/-- C6: signing_pub_key_bytes returns the directly embedded owner key
bytes for Alert, Filter, TradeStatistics, MailboxStoragePayload and
TempProposalPayload, traverses the embedded key ring for Arbitrator,
Mediator, OfferPayload and RefundAgent, and yields none exactly when
the variant message is absent or a required key ring is absent. -/
theorem c6_signing_pub_key_bytes :
    (∀ a : Alert, StoragePayload.signing_pub_key_bytes
      { message := some (.Alert a) } = some a.owner_pub_key_bytes) ∧
    (∀ f : Filter, StoragePayload.signing_pub_key_bytes
      { message := some (.Filter f) } = some f.owner_pub_key_bytes) ∧
    (∀ t : TradeStatistics, StoragePayload.signing_pub_key_bytes
      { message := some (.TradeStatistics t) } = some t.signature_pub_key_bytes) ∧
    (∀ m : MailboxStoragePayload, StoragePayload.signing_pub_key_bytes
      { message := some (.MailboxStoragePayload m) } =
        some m.sender_pub_key_for_add_operation_bytes) ∧
    (∀ t : TempProposalPayload, StoragePayload.signing_pub_key_bytes
      { message := some (.TempProposalPayload t) } = some t.owner_pub_key_encoded) ∧
    (∀ a : Arbitrator, StoragePayload.signing_pub_key_bytes
      { message := some (.Arbitrator a) } =
        a.pub_key_ring.map PubKeyRing.signature_pub_key_bytes) ∧
    (∀ m : Mediator, StoragePayload.signing_pub_key_bytes
      { message := some (.Mediator m) } =
        m.pub_key_ring.map PubKeyRing.signature_pub_key_bytes) ∧
    (∀ o : OfferPayload, StoragePayload.signing_pub_key_bytes
      { message := some (.OfferPayload o) } =
        o.pub_key_ring.map PubKeyRing.signature_pub_key_bytes) ∧
    (∀ r : RefundAgent, StoragePayload.signing_pub_key_bytes
      { message := some (.RefundAgent r) } =
        r.pub_key_ring.map PubKeyRing.signature_pub_key_bytes) ∧
    (∀ p : StoragePayload, p.signing_pub_key_bytes = none ↔
      p.message = none ∨
      (∃ a, p.message = some (.Arbitrator a) ∧ a.pub_key_ring = none) ∨
      (∃ m, p.message = some (.Mediator m) ∧ m.pub_key_ring = none) ∨
      (∃ o, p.message = some (.OfferPayload o) ∧ o.pub_key_ring = none) ∨
      (∃ r, p.message = some (.RefundAgent r) ∧ r.pub_key_ring = none)) := by
  refine ⟨fun a => rfl, fun f => rfl, fun t => rfl, fun m => rfl, fun t => rfl,
    ?_, ?_, ?_, ?_, ?_⟩
  · rintro ⟨_ | r⟩ <;> rfl
  · rintro ⟨_ | r⟩ <;> rfl
  · rintro ⟨_ | r⟩ <;> rfl
  · rintro ⟨_ | r⟩ <;> rfl
  · rintro ⟨_ | m⟩
    · simp [StoragePayload.signing_pub_key_bytes]
    · cases m with
      | Alert a => simp [StoragePayload.signing_pub_key_bytes]
      | Filter a => simp [StoragePayload.signing_pub_key_bytes]
      | TradeStatistics a => simp [StoragePayload.signing_pub_key_bytes]
      | MailboxStoragePayload a => simp [StoragePayload.signing_pub_key_bytes]
      | TempProposalPayload a => simp [StoragePayload.signing_pub_key_bytes]
      | Arbitrator a =>
        rcases a with ⟨_ | r⟩ <;> simp [StoragePayload.signing_pub_key_bytes]
      | Mediator a =>
        rcases a with ⟨_ | r⟩ <;> simp [StoragePayload.signing_pub_key_bytes]
      | OfferPayload a =>
        rcases a with ⟨_ | r⟩ <;> simp [StoragePayload.signing_pub_key_bytes]
      | RefundAgent a =>
        rcases a with ⟨_ | r⟩ <;> simp [StoragePayload.signing_pub_key_bytes]

/-- C7: the persistable identity is the carried 20-byte hash field for
AccountAgeWitness, TradeStatistics2, ProposalPayload and
BlindVotePayload, and for SignedWitness it is RIPEMD-160 of SHA-256 of
witness hash, signature and signer public key concatenated. -/
theorem c7_persistable_identity (c : Crypto) (p : PersistableNetworkPayload) :
    (∀ w, p.message = some (.AccountAgeWitness w) → w.hash.length = 20 →
      p.bisq_hash c = .ok (PersistentMessageHash.mk w.hash)) ∧
    (∀ s, p.message = some (.TradeStatistics2 s) → s.hash.length = 20 →
      p.bisq_hash c = .ok (PersistentMessageHash.mk s.hash)) ∧
    (∀ pr, p.message = some (.ProposalPayload pr) → pr.hash.length = 20 →
      p.bisq_hash c = .ok (PersistentMessageHash.mk pr.hash)) ∧
    (∀ v, p.message = some (.BlindVotePayload v) → v.hash.length = 20 →
      p.bisq_hash c = .ok (PersistentMessageHash.mk v.hash)) ∧
    (∀ w, p.message = some (.SignedWitness w) →
      p.bisq_hash c = .ok (PersistentMessageHash.mk
        (c.ripemd160 (c.sha256
          (w.account_age_witness_hash ++ w.signature ++ w.signer_pub_key))))) := by
  refine ⟨?_, ?_, ?_, ?_, ?_⟩ <;> intro w hw
  · intro hl
    simp [PersistableNetworkPayload.bisq_hash, hw, ripemd160FromSlice, hl]
  · intro hl
    simp [PersistableNetworkPayload.bisq_hash, hw, ripemd160FromSlice, hl]
  · intro hl
    simp [PersistableNetworkPayload.bisq_hash, hw, ripemd160FromSlice, hl]
  · intro hl
    simp [PersistableNetworkPayload.bisq_hash, hw, ripemd160FromSlice, hl]
  · simp [PersistableNetworkPayload.bisq_hash, hw]

/-- Witness for C7: a concrete AccountAgeWitness with a 20-byte hash
field has that field as its identity. -/
theorem c7_witness :
    PersistableNetworkPayload.bisq_hash trivialCrypto
      { message := some (.AccountAgeWitness { hash := List.replicate 20 7, date := 0 }) } =
      .ok (PersistentMessageHash.mk (List.replicate 20 7)) :=
  (c7_persistable_identity trivialCrypto
    { message := some (.AccountAgeWitness { hash := List.replicate 20 7, date := 0 }) }).1
    { hash := List.replicate 20 7, date := 0 } rfl (by decide)

/-- Counterexample to C4 as stated: the persistable-set key of an
AccountAgeWitness is the peer-supplied hash field verbatim. Two
payloads with identical content apart from that field get different
keys, and two payloads with different content but the same field get
the same key, so the key is taken from the peer-supplied field, not
computed by the core from the content. -/
theorem c4_counterexample :
    PersistableNetworkPayload.bisq_hash trivialCrypto
      { message := some (.AccountAgeWitness
          { hash := List.replicate 20 0, date := 0 }) } =
      .ok (PersistentMessageHash.mk (List.replicate 20 0)) ∧
    PersistableNetworkPayload.bisq_hash trivialCrypto
      { message := some (.AccountAgeWitness
          { hash := List.replicate 20 1, date := 0 }) } =
      .ok (PersistentMessageHash.mk (List.replicate 20 1)) ∧
    PersistableNetworkPayload.bisq_hash trivialCrypto
      { message := some (.AccountAgeWitness
          { hash := List.replicate 20 0, date := 1 }) } =
      PersistableNetworkPayload.bisq_hash trivialCrypto
      { message := some (.AccountAgeWitness
          { hash := List.replicate 20 0, date := 0 }) } :=
  ⟨rfl, rfl, rfl⟩

/-- C4 amended: the core computes the persistable-set key only for the
SignedWitness variant; for the other four variants the key is taken
verbatim from the peer-supplied 20-byte hash field of the payload. -/
theorem c4_amended_key_provenance (c : Crypto) :
    (∀ w : AccountAgeWitness, w.hash.length = 20 →
      PersistableNetworkPayload.bisq_hash c
        { message := some (.AccountAgeWitness w) } =
        .ok (PersistentMessageHash.mk w.hash)) ∧
    (∀ s : TradeStatistics2, s.hash.length = 20 →
      PersistableNetworkPayload.bisq_hash c
        { message := some (.TradeStatistics2 s) } =
        .ok (PersistentMessageHash.mk s.hash)) ∧
    (∀ pr : ProposalPayload, pr.hash.length = 20 →
      PersistableNetworkPayload.bisq_hash c
        { message := some (.ProposalPayload pr) } =
        .ok (PersistentMessageHash.mk pr.hash)) ∧
    (∀ v : BlindVotePayload, v.hash.length = 20 →
      PersistableNetworkPayload.bisq_hash c
        { message := some (.BlindVotePayload v) } =
        .ok (PersistentMessageHash.mk v.hash)) ∧
    (∀ w : SignedWitness,
      PersistableNetworkPayload.bisq_hash c
        { message := some (.SignedWitness w) } =
        .ok (PersistentMessageHash.mk (c.ripemd160 (c.sha256
          (w.account_age_witness_hash ++ w.signature ++ w.signer_pub_key))))) := by
  refine ⟨?_, ?_, ?_, ?_, fun w => rfl⟩ <;>
    intro w hl <;>
    simp [PersistableNetworkPayload.bisq_hash, ripemd160FromSlice, hl]

/-- Witness for C4 amended: a concrete TradeStatistics2 payload whose
key is its carried field. -/
theorem c4_witness :
    PersistableNetworkPayload.bisq_hash trivialCrypto
      { message := some (.TradeStatistics2 { hash := List.replicate 20 3 }) } =
      .ok (PersistentMessageHash.mk (List.replicate 20 3)) :=
  (c4_amended_key_provenance trivialCrypto).2.1
    { hash := List.replicate 20 3 } (by decide)

/-- Counterexample to C3 as stated: hash extraction does not resolve a
malformed embedded hash or an absent message to the invalid outcome;
the expect calls of the source abort the process, modelled by the error
branch. -/
theorem c3_counterexample :
    RefreshOfferMessage.payload_hash
      { hash_of_data_and_seq_nr := [], signature := [], hash_of_payload := [0],
        sequence_number := 0 } =
      .error "Couldnt unwrap RefreshOfferMessage.hash_of_data" ∧
    PersistableNetworkPayload.bisq_hash trivialCrypto { message := none } =
      .error "PersistableNetworkPayload doesnt have message attached" :=
  ⟨rfl, rfl⟩

/-- C3 amended: entry verification and refresh verification resolve an
undecodable owner key, a cryptographic verification error (no one-shot
verdict) and a failed or malformed signature (a negative one-shot
verdict) to the single no-result outcome, while the hash-extraction
operations succeed exactly on a well-formed embedded hash (and, for
the persistable payload, a present message), aborting otherwise. -/
theorem c3_amended_failure_semantics :
    (∀ m : RefreshOfferMessage,
      exOk m.payload_hash = true ↔ m.hash_of_payload.length = 32) ∧
    (∀ (c : Crypto) (p : PersistableNetworkPayload),
      exOk (p.bisq_hash c) = true ↔
        (match p.message with
         | none => False
         | some (.AccountAgeWitness w) => w.hash.length = 20
         | some (.TradeStatistics2 s) => s.hash.length = 20
         | some (.ProposalPayload pr) => pr.hash.length = 20
         | some (.BlindVotePayload v) => v.hash.length = 20
         | some (.SignedWitness _) => True)) ∧
    (∀ (c : Crypto) (e : ProtectedStorageEntry),
      c.publicKeyFromDer e.owner_pub_key_bytes = false → e.verify c = none) ∧
    (∀ (c : Crypto) (m : RefreshOfferMessage) (k : Bytes) (o : StoragePayload),
      c.publicKeyFromDer k = false → m.verify c k o = none) ∧
    (∀ (c : Crypto) (e : ProtectedStorageEntry),
      (c.verifyOneshot e.owner_pub_key_bytes e.signature
          (DataAndSeqNrPair.sha256Of c
            { payload := e.storage_payload,
              sequence_number := e.sequence_number }) = none ∨
       c.verifyOneshot e.owner_pub_key_bytes e.signature
          (DataAndSeqNrPair.sha256Of c
            { payload := e.storage_payload,
              sequence_number := e.sequence_number }) = some false) →
      e.verify c = none) ∧
    (∀ (c : Crypto) (m : RefreshOfferMessage) (k : Bytes) (o : StoragePayload),
      (c.verifyOneshot k m.signature
          (DataAndSeqNrPair.sha256Of c
            { payload := some o, sequence_number := m.sequence_number }) = none ∨
       c.verifyOneshot k m.signature
          (DataAndSeqNrPair.sha256Of c
            { payload := some o, sequence_number := m.sequence_number }) = some false) →
      m.verify c k o = none) := by
  refine ⟨?_, ?_, ?_, ?_, ?_, ?_⟩
  · intro m
    unfold RefreshOfferMessage.payload_hash sha256FromSlice
    by_cases hl : m.hash_of_payload.length = 32 <;> simp [hl, exOk]
  · intro c p
    rcases p with ⟨_ | m⟩
    · simp [PersistableNetworkPayload.bisq_hash, exOk]
    · cases m with
      | SignedWitness w => simp [PersistableNetworkPayload.bisq_hash, exOk]
      | AccountAgeWitness w =>
        unfold PersistableNetworkPayload.bisq_hash ripemd160FromSlice
        by_cases hl : w.hash.length = 20 <;> simp [hl, exOk]
      | TradeStatistics2 w =>
        unfold PersistableNetworkPayload.bisq_hash ripemd160FromSlice
        by_cases hl : w.hash.length = 20 <;> simp [hl, exOk]
      | ProposalPayload w =>
        unfold PersistableNetworkPayload.bisq_hash ripemd160FromSlice
        by_cases hl : w.hash.length = 20 <;> simp [hl, exOk]
      | BlindVotePayload w =>
        unfold PersistableNetworkPayload.bisq_hash ripemd160FromSlice
        by_cases hl : w.hash.length = 20 <;> simp [hl, exOk]
  · intro c e hk
    unfold ProtectedStorageEntry.verify
    rcases hsp : e.storage_payload with _ | p
    · simp [hsp]
    · rcases hs : p.signing_pub_key_bytes with _ | s
      · simp [hsp, hs]
      · simp [hsp, hs, hk]
  · intro c m k o hk
    unfold RefreshOfferMessage.verify
    by_cases hh : DataAndSeqNrPair.sha256Of c
        { payload := some o, sequence_number := m.sequence_number } ≠
      m.hash_of_data_and_seq_nr <;> simp [hh, hk]
  · intro c e hv
    rcases hcase : e.verify c with _ | h
    · rfl
    · exfalso
      obtain ⟨p, hp, -, -, h4, -⟩ := (verify_eq_some_iff c e h).mp hcase
      rw [hp] at hv
      rcases hv with hv | hv <;> simp [h4] at hv
  · intro c m k o hv
    unfold RefreshOfferMessage.verify
    by_cases hh : DataAndSeqNrPair.sha256Of c
        { payload := some o, sequence_number := m.sequence_number } ≠
      m.hash_of_data_and_seq_nr
    · simp [hh]
    · rcases hv with hv | hv <;> simp [hh, hv]

/-- Witness for C3 amended: a concrete refresh message with a 32-byte
embedded hash extracts successfully. -/
theorem c3_witness :
    exOk (RefreshOfferMessage.payload_hash
      { hash_of_data_and_seq_nr := [], signature := [],
        hash_of_payload := List.replicate 32 0, sequence_number := 0 }) = true :=
  (c3_amended_failure_semantics.1
    { hash_of_data_and_seq_nr := [], signature := [],
      hash_of_payload := List.replicate 32 0, sequence_number := 0 }).mpr (by decide)

/-- C8: each generated extractor narrows the envelope union: it returns
Succeeded with the wrapped payload when the message is of its variant,
and otherwise Failed with the original message unchanged so another
matcher can receive it. -/
theorem c8_extract_dispatch (m : network_envelope.Message) :
    (∀ r, AddDataMessage.extract (.AddDataMessage r) = .Succeeded r) ∧
    ((∀ r, m ≠ .AddDataMessage r) → AddDataMessage.extract m = .Failed m) ∧
    (∀ r, RefreshOfferMessage.extract (.RefreshOfferMessage r) = .Succeeded r) ∧
    ((∀ r, m ≠ .RefreshOfferMessage r) → RefreshOfferMessage.extract m = .Failed m) ∧
    (∀ r, AddPersistableNetworkPayloadMessage.extract
      (.AddPersistableNetworkPayloadMessage r) = .Succeeded r) ∧
    ((∀ r, m ≠ .AddPersistableNetworkPayloadMessage r) →
      AddPersistableNetworkPayloadMessage.extract m = .Failed m) := by
  refine ⟨fun r => rfl, ?_, fun r => rfl, ?_, fun r => rfl, ?_⟩
  · intro h
    cases m with
    | AddDataMessage a => exact absurd rfl (h a)
    | RefreshOfferMessage a => rfl
    | AddPersistableNetworkPayloadMessage a => rfl
    | Ping a => rfl
  · intro h
    cases m with
    | AddDataMessage a => rfl
    | RefreshOfferMessage a => exact absurd rfl (h a)
    | AddPersistableNetworkPayloadMessage a => rfl
    | Ping a => rfl
  · intro h
    cases m with
    | AddDataMessage a => rfl
    | RefreshOfferMessage a => rfl
    | AddPersistableNetworkPayloadMessage a => exact absurd rfl (h a)
    | Ping a => rfl

/-- Witness for C8: a Ping envelope is handed back unchanged by the
RefreshOfferMessage extractor. -/
theorem c8_witness :
    RefreshOfferMessage.extract (.Ping { nonce := 0 }) =
      .Failed (.Ping { nonce := 0 }) :=
  (c8_extract_dispatch (.Ping { nonce := 0 })).2.2.2.1 (by simp)

/-- Appending a digit multiplies the accumulated value by ten. -/
lemma parseDigits_append (l : List Nat) (d : Nat) :
    parseDigits (l ++ [d]) = parseDigits l * 10 + d := by
  simp [parseDigits, List.foldl_append]

/-- With enough fuel, the emitted digits fold back to the number. -/
lemma natDigitsFuel_parse (f : Nat) :
    ∀ n, n ≤ f → parseDigits ((natDigitsFuel f n).reverse) = n := by
  induction f with
  | zero =>
    intro n h
    have hz : n = 0 := Nat.le_zero.mp h
    subst hz
    simp [natDigitsFuel, parseDigits]
  | succ f ih =>
    intro n h
    rcases n with _ | k
    · simp [natDigitsFuel, parseDigits]
    · have hdiv : (k + 1) / 10 ≤ f := by
        have := Nat.div_lt_self (Nat.succ_pos k) (by decide : (1 : Nat) < 10)
        omega
      show parseDigits ((((k + 1) % 10) :: natDigitsFuel f ((k + 1) / 10)).reverse) = k + 1
      rw [List.reverse_cons, parseDigits_append, ih _ hdiv]
      omega

/-- Every emitted digit is below ten. -/
lemma natDigitsFuel_digits_lt (f : Nat) :
    ∀ n, ∀ d ∈ natDigitsFuel f n, d < 10 := by
  induction f with
  | zero => intro n d hd; cases hd
  | succ f ih =>
    intro n d hd
    rcases n with _ | k
    · cases hd
    · rcases List.mem_cons.mp hd with hh | hh
      · subst hh
        exact Nat.mod_lt _ (by decide)
      · exact ih _ _ hh

/-- The decimal rendering folds back to the number. -/
lemma natToDecimalDigits_parse (n : Nat) : parseDigits (natToDecimalDigits n) = n := by
  unfold natToDecimalDigits
  by_cases h : n = 0
  · simp [h, parseDigits]
  · rw [if_neg h]
    exact natDigitsFuel_parse n n le_rfl

/-- The decimal rendering is made of digits below ten. -/
lemma natToDecimalDigits_lt (n : Nat) : ∀ d ∈ natToDecimalDigits n, d < 10 := by
  unfold natToDecimalDigits
  by_cases h : n = 0
  · intro d hd
    rw [if_pos h] at hd
    simp at hd
    omega
  · intro d hd
    rw [if_neg h] at hd
    rw [List.mem_reverse] at hd
    exact natDigitsFuel_digits_lt n n d hd

/-- The decimal rendering is never empty. -/
lemma natToDecimalDigits_ne_nil (n : Nat) : natToDecimalDigits n ≠ [] := by
  unfold natToDecimalDigits
  by_cases h : n = 0
  · simp [h]
  · rw [if_neg h]
    rcases n with _ | k
    · exact absurd rfl h
    · simp [natDigitsFuel]

/-- Rendering a digit and reading it back is the identity, and the
rendered character is neither the separator nor a sign. -/
lemma digitChar_spec {d : Nat} (h : d < 10) :
    charToDigit (digitChar d) = some d ∧ digitChar d ≠ ':' ∧ digitChar d ≠ '+' := by
  interval_cases d <;> refine ⟨?_, ?_, ?_⟩ <;> decide

/-- Reading back a rendered digit string gives the digit list. -/
lemma charsToDigits_map_digitChar :
    ∀ l : List Nat, (∀ d ∈ l, d < 10) → charsToDigits (l.map digitChar) = some l := by
  intro l
  induction l with
  | nil => intro _; rfl
  | cons d t ih =>
    intro h
    have hd : d < 10 := h d (List.mem_cons_self d t)
    show charsToDigits (digitChar d :: t.map digitChar) = some (d :: t)
    unfold charsToDigits
    rw [(digitChar_spec hd).1, ih fun x hx => h x (List.mem_cons_of_mem d hx)]

/-- A rendered digit string contains no separator. -/
lemma map_digitChar_no_colon (l : List Nat) (h : ∀ d ∈ l, d < 10) :
    ':' ∉ l.map digitChar := by
  intro hm
  rcases List.mem_map.mp hm with ⟨d, hd, hcd⟩
  exact (digitChar_spec (h d hd)).2.1 hcd

/-- Splitting never returns an empty field list. -/
lemma splitOnColon_ne_nil (l : List Char) : splitOnColon l ≠ [] := by
  cases l with
  | nil => simp [splitOnColon]
  | cons c rest =>
    unfold splitOnColon
    by_cases hc : c = ':'
    · simp [hc]
    · rw [if_neg hc]
      rcases hr : splitOnColon rest with _ | ⟨g, gs⟩ <;> simp

/-- A colon-free string splits into the single field it is. -/
lemma splitOnColon_no_colon : ∀ l : List Char, ':' ∉ l → splitOnColon l = [l] := by
  intro l
  induction l with
  | nil => intro _; rfl
  | cons c rest ih =>
    intro h
    have hc : c ≠ ':' := by intro hh; subst hh; simp at h
    unfold splitOnColon
    rw [if_neg hc, ih fun hm => h (List.mem_cons_of_mem c hm)]

/-- Splitting after a colon-free prefix peels that prefix off as the
first field. -/
lemma splitOnColon_append :
    ∀ l1 l2 : List Char, ':' ∉ l1 →
      splitOnColon (l1 ++ ':' :: l2) = l1 :: splitOnColon l2 := by
  intro l1
  induction l1 with
  | nil => intro l2 _; simp [splitOnColon]
  | cons c cs ih =>
    intro l2 h
    have hc : c ≠ ':' := by intro hh; subst hh; simp at h
    have hcs : ':' ∉ cs := fun hm => h (List.mem_cons_of_mem c hm)
    show splitOnColon (c :: (cs ++ ':' :: l2)) = (c :: cs) :: splitOnColon l2
    rw [splitOnColon, if_neg hc, ih l2 hcs]

/-- A successfully parsed port string is all digits. -/
lemma charsToDigits_forall_digit :
    ∀ {s : List Char} {ds : List Nat},
      charsToDigits s = some ds → ∀ c ∈ s, c.isDigit = true := by
  intro s
  induction s with
  | nil => intro ds h c hc; cases hc
  | cons a t ih =>
    intro ds h c hc
    unfold charsToDigits at h
    rcases ha : charToDigit a with _ | d
    · rw [ha] at h; cases h
    · rcases ht : charsToDigits t with _ | ds'
      · rw [ha, ht] at h; cases h
      · rcases List.mem_cons.mp hc with hh | hh
        · subst hh
          unfold charToDigit at ha
          by_cases hdig : c.isDigit
          · exact hdig
          · rw [if_neg hdig] at ha; cases ha
        · exact ih ht c hh

/-- A string the core port parser accepts contains no colon. -/
lemma parseU16Core_no_colon {s : List Char} {n : Nat}
    (h : parseU16Core s = some n) : ':' ∉ s := by
  unfold parseU16Core at h
  by_cases he : s.isEmpty
  · rw [if_pos he] at h; cases h
  · rw [if_neg he] at h
    rcases hc : charsToDigits s with _ | ds
    · rw [hc] at h; cases h
    · intro hm
      have := charsToDigits_forall_digit hc ':' hm
      exact absurd this (by decide)

/-- A string u16::from_str accepts contains no colon. -/
lemma parse_u16_no_colon {s : List Char} {n : Nat}
    (h : parse_u16 s = some n) : ':' ∉ s := by
  unfold parse_u16 at h
  rcases s with _ | ⟨c, t⟩
  · simp
  · by_cases hp : (c :: t).head? = some '+'
    · rw [if_pos hp] at h
      have hc : c = '+' := by simpa using hp
      have htail : ':' ∉ t := parseU16Core_no_colon h
      intro hm
      rcases List.mem_cons.mp hm with hh | hh
      · exact absurd (hh.trans hc) (by decide)
      · exact htail hh
    · rw [if_neg hp] at h
      exact parseU16Core_no_colon h

/-- The core port parser reads a rendered 16-bit value back. -/
lemma parseU16Core_digits (n : Nat) (h : n < 65536) :
    parseU16Core ((natToDecimalDigits n).map digitChar) = some n := by
  unfold parseU16Core
  have hne : ((natToDecimalDigits n).map digitChar).isEmpty = false := by
    rcases hl : natToDecimalDigits n with _ | ⟨d, t⟩
    · exact absurd hl (natToDecimalDigits_ne_nil n)
    · rfl
  rw [hne]
  simp only [Bool.false_eq_true, if_false,
    charsToDigits_map_digitChar _ (natToDecimalDigits_lt n), natToDecimalDigits_parse n]
  rw [if_pos h]

/-- u16::from_str reads a rendered 16-bit value back. -/
lemma parse_u16_digits (n : Nat) (h : n < 65536) :
    parse_u16 ((natToDecimalDigits n).map digitChar) = some n := by
  unfold parse_u16
  have hplus : ((natToDecimalDigits n).map digitChar).head? ≠ some '+' := by
    rcases hl : natToDecimalDigits n with _ | ⟨d, t⟩
    · exact absurd hl (natToDecimalDigits_ne_nil n)
    · have hd : d < 10 := natToDecimalDigits_lt n d (by rw [hl]; exact List.mem_cons_self d t)
      simp [hl]
      exact (digitChar_spec hd).2.2
  rw [if_neg hplus]
  exact parseU16Core_digits n h

/-- C5 amended: formatting then parsing a node address is the identity
for every address whose host contains no colon and whose port is a
valid unsigned 16-bit value; parsing host:70000 fails because the port
overflows, and parsing a bare host fails for lack of a port field. -/
theorem c5_amended_node_address_roundtrip :
    (∀ a : NodeAddress, ':' ∉ a.host_name → 0 ≤ a.port → a.port < 65536 →
      NodeAddress.from_str a.display = .ok a) ∧
    NodeAddress.from_str ['h', 'o', 's', 't', ':', '7', '0', '0', '0', '0'] =
      .error "Couldnt parse port" ∧
    NodeAddress.from_str ['h', 'o', 's', 't'] =
      .error "Couldnt parse node address" := by
  refine ⟨?_, rfl, rfl⟩
  intro a hcolon hpos hlt
  have hneg : ¬ a.port < 0 := by omega
  have htn : a.port.toNat < 65536 := by omega
  have hsplit : splitOnColon a.display =
      a.host_name :: [(natToDecimalDigits a.port.toNat).map digitChar] := by
    unfold NodeAddress.display intDisplay
    rw [if_neg hneg, splitOnColon_append _ _ hcolon,
      splitOnColon_no_colon _ (map_digitChar_no_colon _ (natToDecimalDigits_lt a.port.toNat))]
  have hport : ((a.port.toNat : Int)) = a.port := Int.toNat_of_nonneg hpos
  unfold NodeAddress.from_str
  rw [hsplit]
  simp only [parse_u16_digits a.port.toNat htn, hport]

/-- Witness for C5 amended: a concrete colon-free address with an
in-range port round-trips. -/
theorem c5_witness :
    NodeAddress.from_str (NodeAddress.display { host_name := ['h'], port := 80 }) =
      .ok { host_name := ['h'], port := 80 } :=
  c5_amended_node_address_roundtrip.1 { host_name := ['h'], port := 80 }
    (by decide) (by decide) (by decide)

/-- Counterexample to C5 as stated: formatting then parsing is not the
identity on every address. An address whose port does not fit in 16
bits, and an address whose host contains a colon, both fail to parse
back. -/
theorem c5_counterexample :
    NodeAddress.from_str (NodeAddress.display { host_name := ['a'], port := 70000 }) =
      .error "Couldnt parse port" ∧
    NodeAddress.from_str (NodeAddress.display { host_name := ['a', ':', 'b'], port := 80 }) =
      .error "Couldnt parse port" :=
  ⟨rfl, rfl⟩

/-- C10: parsing looks only at the first two colon-separated fields:
any input of the form host, colon, port, colon, rest with a colon-free
host and a port u16::from_str accepts parses to that host and port,
silently discarding everything after the second colon. -/
theorem c10_extra_fields_ignored (host portStr rest : List Char) (n : Nat)
    (hhost : ':' ∉ host) (hport : parse_u16 portStr = some n) :
    NodeAddress.from_str (host ++ ':' :: (portStr ++ ':' :: rest)) =
      .ok { host_name := host, port := (n : Int) } := by
  have hnc : ':' ∉ portStr := parse_u16_no_colon hport
  unfold NodeAddress.from_str
  rw [splitOnColon_append _ _ hhost, splitOnColon_append _ _ hnc]
  simp only [hport]

/-- Witness for C10: a concrete three-field input parses, dropping the
trailing field. -/
theorem c10_witness :
    NodeAddress.from_str (['h'] ++ ':' :: (['8', '0'] ++ ':' :: ['x'])) =
      .ok { host_name := ['h'], port := (80 : Int) } :=
  c10_extra_fields_ignored ['h'] ['8', '0'] ['x'] 80 (by decide) (by decide)

end Risq
